import Mathlib

/-!
# static.config.js : route provider, render adapter and build customizer

A shallow embedding of the hooks exported by `src/static.config.js`.

* External collaborators (the HTTP client, the rendering function, the style sheet
  of styled-components, the module `./webpack.config.js`, the theme file) are inputs
  of the definitions: a function or a record that the caller supplies.
* Mutation of an object is explicit state passing: a hook that mutates its argument
  returns the argument's new value.
* A JavaScript exception is the `error` case of `Except`.
-/

namespace StaticConfig

/-! ## JavaScript objects and arrays -/

/-- The error values raised by the hooks themselves. -/
inductive JsError where
  | typeError (msg : String)
  deriving DecidableEq, Repr

/-- A plain object as the list of its own properties, in insertion order. -/
abbrev JsObject (V : Type) := List (String × V)

namespace JsObject
variable {V : Type}

/-- Property read `o[k]`: `none` stands for `undefined`. -/
def get (o : JsObject V) (k : String) : Option V :=
  match o with
  | [] => none
  | (k', v) :: rest => if k' = k then some v else get rest k

/-- Property write `o[k] = v`: overwrites an existing property in place, else adds one. -/
def set (o : JsObject V) (k : String) (v : V) : JsObject V :=
  match o with
  | [] => [(k, v)]
  | (k', v') :: rest => if k' = k then (k, v) :: rest else (k', v') :: set rest k v

end JsObject

/-- An array whose slots may be holes: `none` is a slot that holds no element. -/
abbrev JsArray (α : Type) := List (Option α)

namespace JsArray
variable {α : Type}

/-- Indexed read `a[i]`: `none` (undefined) for a hole and beyond the length. -/
def get (a : JsArray α) (i : Nat) : Option α :=
  a[i]?.join

/-- Indexed write `a[i] = v`: beyond the length the array grows, leaving holes. -/
def set (a : JsArray α) (i : Nat) (v : α) : JsArray α :=
  if i < a.length then List.set a i (some v)
  else a ++ List.replicate (i - a.length) none ++ [some v]

end JsArray

/-! ## Routes (`getSiteProps`, `getRoutes`) -/

/-- The object returned by a route's `getProps`: `{ posts }` or `{ post }`. -/
inductive Props (Post : Type) where
  | posts (posts : List Post)
  | post (post : Post)

/-- A route object: `path`, `component`, `getProps`, `children`, `is404`;
`none` is a key the object literal does not have. -/
inductive Route (Post : Type) where
  | mk (path : Option String) (component : String)
      (getProps : Option (Unit → Props Post))
      (children : Option (List (Route Post))) (is404 : Option Bool)

namespace Route
variable {Post : Type}

def path : Route Post → Option String
  | mk p _ _ _ _ => p

def component : Route Post → String
  | mk _ c _ _ _ => c

def getProps : Route Post → Option (Unit → Props Post)
  | mk _ _ g _ _ => g

def children : Route Post → Option (List (Route Post))
  | mk _ _ _ cs _ => cs

def is404 : Route Post → Option Bool
  | mk _ _ _ _ m => m

/-- The value of calling the route's `getProps`, when it has one. -/
def callGetProps (r : Route Post) : Option (Props Post) :=
  r.getProps.map fun g => g ()

/-- Whether the not-found marker is set on this route itself. -/
def marked (r : Route Post) : Bool :=
  r.is404 == some true

/-- The child routes, an absent `children` key giving none. -/
def childList (r : Route Post) : List (Route Post) :=
  r.children.getD []

mutual
/-- Number of routes carrying the not-found marker in the tree rooted at a route. -/
def count404 : Route Post → Nat
  | mk _ _ _ cs m => (if m = some true then 1 else 0) + count404Children cs
/-- Number of marked routes below an optional `children` array. -/
def count404Children : Option (List (Route Post)) → Nat
  | none => 0
  | some rs => count404List rs
/-- Number of marked routes in a list of route trees. -/
def count404List : List (Route Post) → Nat
  | [] => 0
  | r :: rs => count404 r + count404List rs
end

end Route

/-- The object `axios.get` resolves to; only `data` is read. -/
structure AxiosResponse (Post : Type) where
  data : List Post

/-- The site properties: `{ title: 'React Static' }`. -/
def getSiteProps : JsObject String :=
  [("title", "React Static")]

/-- The address the posts are fetched from. -/
def postsUrl : String := "https://jsonplaceholder.typicode.com/posts"

/-- The hook `getRoutes`. `get` is `axios.get`, a rejected request being `error`;
`idText post` is the text the template literal inserts for `post.id`. The closures
`getProps` capture `posts` and `post`. -/
def getRoutes {Post ε : Type} (idText : Post → String)
    (get : String → Except ε (AxiosResponse Post)) : Except ε (List (Route Post)) :=
  match get postsUrl with
  | .error e => .error e
  | .ok response =>
    let posts := response.data
    .ok [
      .mk (some "/") "src/containers/Home" none none none,
      .mk (some "/about") "src/containers/About" none none none,
      .mk (some "/blog") "src/containers/Blog"
        (some fun _ => .posts posts)
        (some (posts.map fun post =>
          .mk (some ("/post/" ++ idText post)) "src/containers/Post"
            (some fun _ => .post post) none none))
        none,
      .mk none "src/containers/404" none none (some true)
    ]

/-- A post record of the shape the remote endpoint serves. -/
structure JsonPost where
  userId : Nat
  id : Nat
  title : String
  body : String
  deriving DecidableEq, Repr

/-- The text of a numeric `id` in a template literal, for an integer that the number
type holds exactly and prints without an exponent (below 2^53): its decimal numeral.
The samples use the ids 1 and 2. -/
def JsonPost.idText (p : JsonPost) : String := toString p.id

/-- A fetch that resolves to the given posts. -/
def mockGet {Post : Type} (posts : List Post) : String → Except JsError (AxiosResponse Post) :=
  fun _ => .ok ⟨posts⟩

/-! ## Render adapter (`renderToHtml`) -/

/-- A React element: `<Comp />`, or an element wrapped by `sheet.collectStyles`. -/
inductive Element (Comp : Type) where
  | create (comp : Comp)
  | collectStyles (child : Element Comp)
  deriving DecidableEq, Repr

/-- The part of `ServerStyleSheet` the adapter uses, over the state `Sheet` of a sheet. -/
structure ServerStyleSheet (Sheet Tags : Type) where
  /-- State of `new ServerStyleSheet()`. -/
  fresh : Sheet
  /-- Result of `sheet.getStyleElement()` in a state. -/
  getStyleElement : Sheet → Tags

/-- A value held by the metadata bag. -/
inductive MetaValue (Tags V : Type) where
  | tags (t : Tags)
  | other (v : V)
  deriving DecidableEq, Repr

/-- The hook `renderToHtml`. `render` receives the wrapped element and the state of
the sheet it registers styles with; an exception it throws is `error`. The result
is the returned markup and the metadata bag after the call. -/
def renderToHtml {Sheet Tags Comp Html V ε : Type} (api : ServerStyleSheet Sheet Tags)
    (render : Element Comp → Sheet → Except ε (Html × Sheet))
    (comp : Comp) (meta : JsObject (MetaValue Tags V)) :
    Except ε (Html × JsObject (MetaValue Tags V)) :=
  let sheet := api.fresh
  match render (.collectStyles (.create comp)) sheet with
  | .error e => .error e
  | .ok (html, sheet) =>
    let meta := JsObject.set meta "styleTags" (.tags (api.getStyleElement sheet))
    .ok (html, meta)

/-! ## Regular expressions -/

/-- The regular-expression syntax that the literals of this module use. -/
inductive Regex where
  /-- The empty pattern. -/
  | empty
  /-- One literal character, such as `j` or the escaped `\.` and `\?`. -/
  | lit (c : Char)
  /-- The wildcard `.`: any character but a line terminator. -/
  | dot
  /-- The assertion `$` (no `m` flag): the end of the input. -/
  | eos
  | seq (a b : Regex)
  | alt (a b : Regex)
  /-- The quantifier `?`. -/
  | opt (a : Regex)
  /-- The quantifier `*`. -/
  | star (a : Regex)
  deriving DecidableEq, Repr

/-- The line terminators: LF, CR, LINE SEPARATOR, PARAGRAPH SEPARATOR. -/
def isLineTerminator (c : Char) : Bool :=
  c.toNat == 0x0A || c.toNat == 0x0D || c.toNat == 0x2028 || c.toNat == 0x2029

/-- Iteration of a matching step: each round must consume input. The counter bounds
the number of rounds and is started at the length of the input. -/
def starLoop (step : List Char → (List Char → Bool) → Bool) :
    Nat → List Char → (List Char → Bool) → Bool
  | 0, s, k => k s
  | n + 1, s, k =>
    step s (fun t => decide (t.length < s.length) && starLoop step n t k) || k s

namespace Regex

/-- Backtracking matcher: `run r s k` holds when `r` matches a prefix of `s` whose
remainder the continuation `k` accepts. -/
def run : Regex → List Char → (List Char → Bool) → Bool
  | empty, s, k => k s
  | lit c, s, k =>
    match s with
    | x :: xs => x == c && k xs
    | [] => false
  | dot, s, k =>
    match s with
    | x :: xs => !isLineTerminator x && k xs
    | [] => false
  | eos, s, k => s.isEmpty && k s
  | seq a b, s, k => run a s (fun t => run b t k)
  | alt a b, s, k => run a s k || run b s k
  | opt a, s, k => run a s k || k s
  | star a, s, k => starLoop (run a) s.length s k

/-- Whether the pattern matches at the start of some suffix of the input. -/
def search (r : Regex) : List Char → Bool
  | [] => r.run [] (fun _ => true)
  | x :: xs => r.run (x :: xs) (fun _ => true) || search r xs

/-- The method `RegExp.prototype.test` of a pattern without flags. The literals of
this module name ASCII characters only, so matching by character agrees with
matching by UTF-16 code unit. -/
def test (r : Regex) (s : String) : Bool :=
  r.search s.toList

/-- The pattern of a run of literal characters. -/
def word : List Char → Regex
  | [] => empty
  | [c] => lit c
  | c :: cs => seq (lit c) (word cs)

/-- An alternation `a|b|...`. -/
def oneOf : List Regex → Regex
  | [] => empty
  | [r] => r
  | r :: rs => alt r (oneOf rs)

end Regex

/-! ## Build configuration (`webpack`) -/

/-- An entry of the postcss `plugins` array. -/
inductive PostcssPlugin where
  | postcssFlexbugsFixes
  | autoprefixer (browsers : List String) (flexbox : String)
  deriving DecidableEq, Repr

/-- The options object of a loader; `none` is a key the object does not have. -/
structure LoaderOptions where
  transpileOnly : Option Bool := none
  importLoaders : Option Nat := none
  minimize : Option Bool := none
  sourceMap : Option Bool := none
  ident : Option String := none
  plugins : Option (Unit → List PostcssPlugin) := none
  modifyVars : Option (JsObject String) := none
  hmr : Option Bool := none

/-- An entry of a `use` array: a loader name, or `{ loader, options }`. -/
inductive UseEntry where
  | name (loader : String)
  | obj (loader : String) (options : Option LoaderOptions)

namespace UseEntry

def loaderName : UseEntry → String
  | name l => l
  | obj l _ => l

def options : UseEntry → Option LoaderOptions
  | name _ => none
  | obj _ o => o

/-- The `minimize` option of the entry. -/
def minimize (u : UseEntry) : Option Bool := u.options.bind LoaderOptions.minimize

/-- The `sourceMap` option of the entry. -/
def sourceMap (u : UseEntry) : Option Bool := u.options.bind LoaderOptions.sourceMap

/-- The `modifyVars` option of the entry. -/
def modifyVars (u : UseEntry) : Option (JsObject String) :=
  u.options.bind LoaderOptions.modifyVars

end UseEntry

/-- The argument of `ExtractTextPlugin.extract`. -/
structure ExtractOptions where
  fallback : UseEntry
  use : List UseEntry

/-- The `loader` property of a rule: a loader name, or the value of
`ExtractTextPlugin.extract(options)`, kept as the call. -/
inductive LoaderSpec where
  | name (loader : String)
  | extract (options : ExtractOptions)

/-- A rule condition (`test`, `exclude`): a regular expression, or any other
condition webpack accepts, given as its predicate on resource paths. -/
inductive Condition where
  | regex (r : Regex)
  | fn (f : String → Bool)

/-- Whether the condition matches a resource path. -/
def Condition.matches : Condition → String → Bool
  | .regex r, p => r.test p
  | .fn f, p => f p

/-- A module rule. `extra` holds the properties this module never names. -/
structure Rule where
  test : Option Condition := none
  exclude : Option Condition := none
  use : Option (List UseEntry) := none
  loader : Option LoaderSpec := none
  extra : JsObject String := []

/-- The variables of `process.env`. -/
abbrev ProcessEnv := JsObject String

/-- The options of `new ExtractTextPlugin(options)`. The `filename` function takes
`getPath` and the process environment and gives its result and the environment
after the call. -/
structure ExtractTextPluginOptions where
  filename : (String → String) → ProcessEnv → String × ProcessEnv
  allChunks : Bool

/-- A plugin instance: an `ExtractTextPlugin` built here, or any other plugin. -/
inductive Plugin where
  | extractText (options : ExtractTextPluginOptions)
  | other (name : String)

/-- The object `config.resolve`. -/
structure Resolve where
  extensions : List String
  /-- The property `alias`. -/
  alias_ : JsObject String

/-- The object `config.module`. -/
structure Module where
  rules : List Rule

/-- The webpack configuration object handed to the hook. -/
structure Config where
  resolve : Resolve
  /-- The property `module`. -/
  module_ : Module
  plugins : JsArray Plugin

/-- The second argument of the hook. -/
structure Args where
  stage : String

/-- A handler registered in `require.extensions`. -/
inductive RequireHook where
  | noop
  | other (name : String)
  deriving DecidableEq, Repr

/-- The state of the Node process that the hook touches besides the configuration. -/
structure NodeRuntime where
  requireExtensions : JsObject RequireHook
  console : List String

/-- What the module holds from its load and from other modules. -/
structure ModuleEnv where
  /-- Value of `lessToJs(fs.readFileSync(...))`, computed once at load. -/
  themeVariables : JsObject String
  /-- Value of `require("./webpack.config.js").resolve.alias`. -/
  typescriptAlias : JsObject String
  /-- Effect of `require("babel-register")` on the runtime. -/
  babelRegister : NodeRuntime → NodeRuntime
  /-- Text `JSON.stringify(config, null, 2)` gives. -/
  stringify : Config → String

/-- The literal `/\.(js|jsx|ts|tsx)$/`. -/
def scriptTest : Regex :=
  .seq (.lit '.') (.seq
    (.oneOf [.word ['j', 's'], .word ['j', 's', 'x'], .word ['t', 's'], .word ['t', 's', 'x']])
    .eos)

/-- The literal `/\.less$/`. -/
def lessTest : Regex :=
  .seq (.lit '.') (.seq (.word ['l', 'e', 's', 's']) .eos)

/-- The literal `/\.(js|jsx|css|less|ts|tsx)(\?.*)?$/`. -/
def urlLoaderExclude : Regex :=
  .seq (.lit '.') (.seq
    (.oneOf [.word ['j', 's'], .word ['j', 's', 'x'], .word ['c', 's', 's'],
      .word ['l', 'e', 's', 's'], .word ['t', 's'], .word ['t', 's', 'x']])
    (.seq (.opt (.seq (.lit '?') (.star .dot))) .eos))

/-- The part `(\?.*)?$` of the literal above. -/
def queryTail : Regex :=
  .seq (.opt (.seq (.lit '?') (.star .dot))) .eos

/-- The `browsers` list given to autoprefixer. -/
def autoprefixerBrowsers : List String :=
  [">1%", "last 4 versions", "Firefox ESR", "not ie < 9"]

/-- The postcss `plugins` function, the same in both branches. -/
def postcssPlugins : Unit → List PostcssPlugin :=
  fun _ => [.postcssFlexbugsFixes, .autoprefixer autoprefixerBrowsers "no-2009"]

/-- The flag `printWebpackConfigDuringBuild`. -/
def printWebpackConfigDuringBuild : Bool := false

/-- The rule written to `config.module.rules[0]`; `exclude` is the one of the rule
it replaces. -/
def scriptRule (exclude : Option Condition) : Rule :=
  { test := some (.regex scriptTest)
    exclude := exclude
    use := some [
      .obj "babel-loader" none,
      .obj "ts-loader" (some { transpileOnly := some true }) ] }

/-- The value of `lessConfig` after the branch on the stage. -/
def lessConfig (env : ModuleEnv) (stage : String) : Rule :=
  if stage = "dev" then
    { test := some (.regex lessTest)
      use := some [
        .name "style-loader",
        .obj "css-loader" (some {
          importLoaders := some 1, minimize := some false, sourceMap := some true }),
        .obj "postcss-loader" (some {
          sourceMap := some true, ident := some "postcss", plugins := some postcssPlugins }),
        .obj "less-loader" (some {
          sourceMap := some true, modifyVars := some env.themeVariables }) ] }
  else
    { test := some (.regex lessTest)
      loader := some (.extract {
        fallback := .obj "style-loader" (some { hmr := some false, sourceMap := some false })
        use := [
          .obj "css-loader" (some {
            importLoaders := some 1, minimize := some true, sourceMap := some false }),
          .obj "postcss-loader" (some {
            ident := some "postcss", plugins := some postcssPlugins }),
          .obj "less-loader" (some {
            sourceMap := some false, modifyVars := some env.themeVariables }) ] }) }

/-- The instance `new ExtractTextPlugin({ filename, allChunks: true })`. -/
def extractTextPlugin : Plugin :=
  .extractText {
    filename := fun getPath processEnv =>
      let processEnv := JsObject.set processEnv "extractedCSSpath" "styles.css"
      (getPath "styles.css", processEnv)
    allChunks := true }

/-- The hook `webpack`. The configuration and the runtime are passed in and, when
no exception is thrown, returned as mutated; the statements run in the order of the
source. Reading a property of an absent array element throws. What a thrown
exception leaves of the mutations made before it is not kept. Rule objects are
values here: one rule object held in two slots of the incoming list is not modelled
as shared, so the write to `rules[2].exclude` shows in slot 2 only; nothing below is
stated about the rule slots the hook does not name. -/
def webpack (env : ModuleEnv) (config : Config) (rt : NodeRuntime) (args : Args) :
    Except JsError (Config × NodeRuntime) :=
  let stage := args.stage
  -- config.resolve.extensions.push(".ts", ".tsx")
  let config := { config with resolve :=
    { config.resolve with extensions := config.resolve.extensions ++ [".ts", ".tsx"] } }
  -- config.resolve.alias = typescriptWebpackPaths.resolve.alias
  let config := { config with resolve := { config.resolve with alias_ := env.typescriptAlias } }
  -- config.module.rules[0] = { test, exclude: config.module.rules[0].exclude, use }
  match config.module_.rules[0]? with
  | none => .error (.typeError "Cannot read property exclude of undefined")
  | some rule0 =>
    let config := { config with module_ :=
      { rules := config.module_.rules.set 0 (scriptRule rule0.exclude) } }
    -- config.resolve.extensions.push(".less"); config.resolve.extensions.push(".css")
    let config := { config with resolve :=
      { config.resolve with extensions := config.resolve.extensions ++ [".less"] } }
    let config := { config with resolve :=
      { config.resolve with extensions := config.resolve.extensions ++ [".css"] } }
    -- config.module.rules.push(lessConfig)
    let config := { config with module_ :=
      { rules := config.module_.rules ++ [lessConfig env stage] } }
    -- config.plugins[2] = new ExtractTextPlugin(...)
    let config := { config with plugins := JsArray.set config.plugins 2 extractTextPlugin }
    -- require("babel-register"); require.extensions[".less"] = ...; [".css"] = ...
    let rt := env.babelRegister rt
    let rt := { rt with requireExtensions := JsObject.set rt.requireExtensions ".less" .noop }
    let rt := { rt with requireExtensions := JsObject.set rt.requireExtensions ".css" .noop }
    -- config.module.rules[2].exclude = /\.(js|jsx|css|less|ts|tsx)(\?.*)?$/
    match config.module_.rules[2]? with
    | none => .error (.typeError "Cannot set property exclude of undefined")
    | some rule2 =>
      let rule2 : Rule := { rule2 with exclude := some (.regex urlLoaderExclude) }
      let config := { config with module_ := { rules := config.module_.rules.set 2 rule2 } }
      let rt :=
        if printWebpackConfigDuringBuild && stage == "dev" then
          { rt with console := rt.console ++ [env.stringify config] }
        else rt
      .ok (config, rt)

/-! ## Sample inputs -/

/-- Two posts as the endpoint serves them, and a third that repeats an `id`. -/
def post1 : JsonPost := { userId := 1, id := 1, title := "sunt aut facere", body := "quia et" }

def post2 : JsonPost := { userId := 1, id := 2, title := "qui est esse", body := "est rerum" }

def post1Again : JsonPost := { userId := 7, id := 1, title := "magnam", body := "dolore" }

/-- A style sheet whose state is the list of the rules registered so far. -/
def sampleSheet : ServerStyleSheet (List String) (List String) :=
  { fresh := [], getStyleElement := fun rules => rules.map fun r => "<style>" ++ r ++ "</style>" }

/-- A render function that registers one rule and returns fixed markup. -/
def sampleRender : Element String → List String → Except JsError (String × List String) :=
  fun _ sheet => .ok ("<div>hello</div>", sheet ++ ["div:color=red"])

/-- A metadata bag that already holds a field. -/
def sampleMeta : JsObject (MetaValue (List String) String) :=
  [("title", .other "Home")]

def sampleEnv : ModuleEnv :=
  { themeVariables := [("@primary-color", "#1DA57A")]
    typescriptAlias := [("@src", "/project/src")]
    babelRegister := fun rt => rt
    stringify := fun _ => "" }

def sampleRuntime : NodeRuntime :=
  { requireExtensions := [], console := [] }

/-- A script rule, a style rule and a catch-all file rule, as a host may supply them. -/
def sampleScriptRule : Rule :=
  { test := some (.regex (.seq (.lit '.') (.seq (.word ['j', 's']) .eos)))
    exclude := some (.fn fun p => p.startsWith "/project/node_modules")
    use := some [.name "babel-loader"] }

def sampleStyleRule : Rule :=
  { test := some (.regex (.seq (.lit '.') (.seq (.word ['c', 's', 's']) .eos)))
    use := some [.name "style-loader", .name "css-loader"] }

def sampleFileRule : Rule :=
  { loader := some (.name "url-loader")
    exclude := some (.regex (.seq (.lit '.') (.seq
      (.oneOf [.word ['j', 's'], .word ['j', 's', 'x'], .word ['c', 's', 's']]) queryTail)))
    extra := [("query", "limit=10000")] }

/-- A configuration with three rules and three plugins. -/
def sampleConfig : Config :=
  { resolve := { extensions := [".js", ".json", ".jsx"], alias_ := [] }
    module_ := { rules := [sampleScriptRule, sampleStyleRule, sampleFileRule] }
    plugins := [some (.other "EnvironmentPlugin"), some (.other "HotModuleReplacementPlugin"),
      some (.other "NoEmitOnErrorsPlugin")] }

/-- A configuration with two rules and no plugin. -/
def twoRuleConfig : Config :=
  { resolve := { extensions := [".js"], alias_ := [] }
    module_ := { rules := [sampleScriptRule, sampleStyleRule] }
    plugins := [] }

/-- A configuration with a single rule. -/
def oneRuleConfig : Config :=
  { resolve := { extensions := [".js"], alias_ := [] }
    module_ := { rules := [sampleScriptRule] }
    plugins := [] }

/-- The configuration after the hook ran on the sample in the given stage. -/
def sampleConfigAfter (stage : String) : Config :=
  match webpack sampleEnv sampleConfig sampleRuntime ⟨stage⟩ with
  | .ok (config, _) => config
  | .error _ => sampleConfig

/-- The runtime after the hook ran on the sample in the given stage. -/
def sampleRuntimeAfter (stage : String) : NodeRuntime :=
  match webpack sampleEnv sampleConfig sampleRuntime ⟨stage⟩ with
  | .ok (_, rt) => rt
  | .error _ => sampleRuntime

/-! ## Routes: what `getRoutes` returns -/

theorem string_append_left_cancel (p a b : String) (h : p ++ a = p ++ b) : a = b := by
  have h2 := congrArg String.data h
  simp only [String.data_append] at h2
  exact String.ext (List.append_cancel_left h2)

/-- The value of `getRoutes` when the fetch resolves. -/
theorem getRoutes_eq {Post ε : Type} (idText : Post → String)
    (get : String → Except ε (AxiosResponse Post)) (response : AxiosResponse Post)
    (h : get postsUrl = .ok response) :
    getRoutes idText get = .ok [
      .mk (some "/") "src/containers/Home" none none none,
      .mk (some "/about") "src/containers/About" none none none,
      .mk (some "/blog") "src/containers/Blog"
        (some fun _ => .posts response.data)
        (some (response.data.map fun post =>
          .mk (some ("/post/" ++ idText post)) "src/containers/Post"
            (some fun _ => .post post) none none))
        none,
      .mk none "src/containers/404" none none (some true)] := by
  unfold getRoutes
  rw [h]

/-- A rejected fetch is passed on to the caller. -/
theorem getRoutes_error {Post ε : Type} (idText : Post → String)
    (get : String → Except ε (AxiosResponse Post)) (e : ε)
    (h : get postsUrl = .error e) : getRoutes idText get = .error e := by
  unfold getRoutes
  rw [h]

theorem count404List_children {Post : Type} (idText : Post → String) (posts : List Post) :
    Route.count404List (posts.map fun post =>
      Route.mk (some ("/post/" ++ idText post)) "src/containers/Post"
        (some fun _ => Props.post post) none none) = 0 := by
  induction posts with
  | nil => rfl
  | cons p ps ih =>
    simp only [List.map_cons, Route.count404List, Route.count404, Route.count404Children, ih]
    decide

/-- C1: when the fetch resolves to N posts, `getRoutes` returns exactly the four
top-level routes home (`/`), `/about`, `/blog`, not-found, in this order; only `/blog`
has children, it has exactly N of them, and the i-th child has the path `/post/`
followed by the id of the i-th fetched post and has no children of its own. -/
theorem getRoutes_shape {Post ε : Type} (idText : Post → String)
    (get : String → Except ε (AxiosResponse Post)) (response : AxiosResponse Post)
    (h : get postsUrl = .ok response) :
    ∃ (home about blog notFound : Route Post) (children : List (Route Post)),
      getRoutes idText get = .ok [home, about, blog, notFound] ∧
      home.path = some "/" ∧ about.path = some "/about" ∧ blog.path = some "/blog" ∧
      notFound.path = none ∧ notFound.is404 = some true ∧
      home.children = none ∧ about.children = none ∧ notFound.children = none ∧
      blog.children = some children ∧
      children.length = response.data.length ∧
      (∀ (i : Nat) (post : Post), response.data[i]? = some post →
        ∃ child, children[i]? = some child ∧
          child.path = some ("/post/" ++ idText post) ∧ child.children = none) := by
  refine ⟨_, _, _, _, _, getRoutes_eq idText get response h, rfl, rfl, rfl, rfl, rfl, rfl, rfl,
    rfl, rfl, by simp, ?_⟩
  intro i post hi
  refine ⟨.mk (some ("/post/" ++ idText post)) "src/containers/Post"
    (some fun _ => .post post) none none, ?_, rfl, rfl⟩
  rw [List.getElem?_map, hi]
  rfl

/-- Instance of C1 on a fetch of two posts. -/
theorem getRoutes_shape_witness :
    mockGet [post1, post2] postsUrl = .ok ⟨[post1, post2]⟩ ∧
    ∃ (home about blog notFound : Route JsonPost) (children : List (Route JsonPost)),
      getRoutes JsonPost.idText (mockGet [post1, post2]) = .ok [home, about, blog, notFound] ∧
      home.path = some "/" ∧ about.path = some "/about" ∧ blog.path = some "/blog" ∧
      notFound.path = none ∧ notFound.is404 = some true ∧
      home.children = none ∧ about.children = none ∧ notFound.children = none ∧
      blog.children = some children ∧
      children.length = [post1, post2].length ∧
      (∀ (i : Nat) (post : JsonPost), [post1, post2][i]? = some post →
        ∃ child, children[i]? = some child ∧
          child.path = some ("/post/" ++ JsonPost.idText post) ∧ child.children = none) :=
  ⟨rfl, getRoutes_shape JsonPost.idText (mockGet [post1, post2]) ⟨[post1, post2]⟩ rfl⟩

/-- C2: when the fetch resolves, exactly one route of the returned tree carries the
not-found marker; it is the last of the four top-level routes, and no child of any
top-level route (so none of `/blog`) carries it. -/
theorem getRoutes_single_notFound {Post ε : Type} (idText : Post → String)
    (get : String → Except ε (AxiosResponse Post)) (response : AxiosResponse Post)
    (h : get postsUrl = .ok response) :
    ∃ routes : List (Route Post),
      getRoutes idText get = .ok routes ∧
      Route.count404List routes = 1 ∧
      routes.map Route.marked = [false, false, false, true] ∧
      (∀ r ∈ routes, ∀ c ∈ r.childList, c.marked = false) := by
  refine ⟨_, getRoutes_eq idText get response h, ?_, rfl, ?_⟩
  · simp only [Route.count404List, Route.count404, Route.count404Children,
      count404List_children]
    decide
  · intro r hr c hc
    simp only [List.mem_cons, List.mem_singleton, List.not_mem_nil, or_false] at hr
    rcases hr with rfl | rfl | rfl | rfl
    · simp [Route.childList, Route.children] at hc
    · simp [Route.childList, Route.children] at hc
    · simp only [Route.childList, Route.children, Option.getD_some, List.mem_map] at hc
      obtain ⟨p, _, rfl⟩ := hc
      rfl
    · simp [Route.childList, Route.children] at hc

/-- Instance of C2 on a fetch of two posts. -/
theorem getRoutes_single_notFound_witness :
    mockGet [post1, post2] postsUrl = .ok ⟨[post1, post2]⟩ ∧
    ∃ routes : List (Route JsonPost),
      getRoutes JsonPost.idText (mockGet [post1, post2]) = .ok routes ∧
      Route.count404List routes = 1 ∧
      routes.map Route.marked = [false, false, false, true] ∧
      (∀ r ∈ routes, ∀ c ∈ r.childList, c.marked = false) :=
  ⟨rfl, getRoutes_single_notFound JsonPost.idText (mockGet [post1, post2]) ⟨[post1, post2]⟩ rfl⟩

/-- C3, as stated, fails: a fetch of two posts with the same id gives `/blog` two
children with the same path `/post/1`. -/
theorem getRoutes_sibling_paths_counterexample :
    ∃ routes : List (Route JsonPost),
      getRoutes JsonPost.idText (mockGet [post1, post1Again]) = .ok routes ∧
      ¬ ((routes.map Route.path).Nodup ∧
          ∀ r ∈ routes, (r.childList.map Route.path).Nodup) := by
  refine ⟨_, rfl, ?_⟩
  rintro ⟨_, hall⟩
  have hblog := hall (.mk (some "/blog") "src/containers/Blog"
    (some fun _ => .posts [post1, post1Again])
    (some ([post1, post1Again].map fun post =>
      .mk (some ("/post/" ++ JsonPost.idText post)) "src/containers/Post"
        (some fun _ => .post post) none none))
    none) (by simp)
  revert hblog
  decide

/-- C3, amended: when the fetch resolves, the four top-level routes have pairwise
distinct paths, only `/blog` has children, and the children of `/blog` have pairwise
distinct paths exactly when the ids of the fetched posts, as written into the paths,
are pairwise distinct. -/
theorem getRoutes_sibling_paths {Post ε : Type} (idText : Post → String)
    (get : String → Except ε (AxiosResponse Post)) (response : AxiosResponse Post)
    (h : get postsUrl = .ok response) :
    ∃ (home about blog notFound : Route Post),
      getRoutes idText get = .ok [home, about, blog, notFound] ∧
      ([home, about, blog, notFound].map Route.path).Nodup ∧
      home.childList = [] ∧ about.childList = [] ∧ notFound.childList = [] ∧
      ((blog.childList.map Route.path).Nodup ↔ (response.data.map idText).Nodup) := by
  refine ⟨_, _, _, _, getRoutes_eq idText get response h, ?_, rfl, rfl, rfl, ?_⟩
  · simp only [List.map, Route.path]
    decide
  · simp only [Route.childList, Route.children, Option.getD_some, List.map_map]
    have hinj : Function.Injective (fun s : String => some ("/post/" ++ s)) := by
      intro a b hab
      exact string_append_left_cancel "/post/" a b (Option.some.inj hab)
    rw [← List.nodup_map_iff hinj, List.map_map]
    rfl

/-- Instance of the amended C3 on a fetch of two posts with different ids. -/
theorem getRoutes_sibling_paths_witness :
    mockGet [post1, post2] postsUrl = .ok ⟨[post1, post2]⟩ ∧
    ∃ (home about blog notFound : Route JsonPost),
      getRoutes JsonPost.idText (mockGet [post1, post2]) = .ok [home, about, blog, notFound] ∧
      ([home, about, blog, notFound].map Route.path).Nodup ∧
      home.childList = [] ∧ about.childList = [] ∧ notFound.childList = [] ∧
      ((blog.childList.map Route.path).Nodup ↔
        ([post1, post2].map JsonPost.idText).Nodup) :=
  ⟨rfl, getRoutes_sibling_paths JsonPost.idText (mockGet [post1, post2]) ⟨[post1, post2]⟩ rfl⟩

/-- C4: when the fetch resolves, calling `getProps` of the `/blog` route gives the whole
fetched list, unchanged and in order, and calling `getProps` of its i-th child gives
exactly the i-th fetched post, the one whose id is in that child's path. -/
theorem getRoutes_props {Post ε : Type} (idText : Post → String)
    (get : String → Except ε (AxiosResponse Post)) (response : AxiosResponse Post)
    (h : get postsUrl = .ok response) :
    ∃ (home about blog notFound : Route Post) (children : List (Route Post)),
      getRoutes idText get = .ok [home, about, blog, notFound] ∧
      blog.path = some "/blog" ∧
      blog.callGetProps = some (.posts response.data) ∧
      blog.children = some children ∧
      children.length = response.data.length ∧
      (∀ (i : Nat) (post : Post), response.data[i]? = some post →
        ∃ child, children[i]? = some child ∧ child.callGetProps = some (.post post) ∧
          child.path = some ("/post/" ++ idText post)) := by
  refine ⟨_, _, _, _, _, getRoutes_eq idText get response h, rfl, rfl, rfl, by simp, ?_⟩
  intro i post hi
  refine ⟨.mk (some ("/post/" ++ idText post)) "src/containers/Post"
    (some fun _ => .post post) none none, ?_, rfl, rfl⟩
  rw [List.getElem?_map, hi]
  rfl

/-- Instance of C4 on a fetch of two posts. -/
theorem getRoutes_props_witness :
    mockGet [post1, post2] postsUrl = .ok ⟨[post1, post2]⟩ ∧
    ∃ (home about blog notFound : Route JsonPost) (children : List (Route JsonPost)),
      getRoutes JsonPost.idText (mockGet [post1, post2]) = .ok [home, about, blog, notFound] ∧
      blog.path = some "/blog" ∧
      blog.callGetProps = some (.posts [post1, post2]) ∧
      blog.children = some children ∧
      children.length = [post1, post2].length ∧
      (∀ (i : Nat) (post : JsonPost), [post1, post2][i]? = some post →
        ∃ child, children[i]? = some child ∧ child.callGetProps = some (.post post) ∧
          child.path = some ("/post/" ++ JsonPost.idText post)) :=
  ⟨rfl, getRoutes_props JsonPost.idText (mockGet [post1, post2]) ⟨[post1, post2]⟩ rfl⟩

/-! ## Render adapter: what `renderToHtml` returns and writes -/

theorem JsObject.get_set_self {V : Type} (o : JsObject V) (k : String) (v : V) :
    JsObject.get (JsObject.set o k v) k = some v := by
  induction o with
  | nil => simp [JsObject.set, JsObject.get]
  | cons e rest ih =>
    obtain ⟨k₀, v₀⟩ := e
    by_cases hk : k₀ = k
    · simp [JsObject.set, JsObject.get, hk]
    · simp [JsObject.set, JsObject.get, hk, ih]

theorem JsObject.get_set_other {V : Type} (o : JsObject V) (k j : String) (v : V)
    (h : j ≠ k) : JsObject.get (JsObject.set o k v) j = JsObject.get o j := by
  induction o with
  | nil => simp [JsObject.set, JsObject.get, Ne.symm h]
  | cons e rest ih =>
    obtain ⟨k₀, v₀⟩ := e
    by_cases hk : k₀ = k
    · subst hk
      simp [JsObject.set, JsObject.get, Ne.symm h]
    · by_cases hj : k₀ = j
      · subst hj
        simp [JsObject.set, JsObject.get, hk]
      · simp [JsObject.set, JsObject.get, hk, hj, ih]

/-- C9: when the supplied render function, applied to the style-collecting wrapping
of `<Comp />` and a fresh sheet, returns markup, `renderToHtml` returns exactly that
markup; after the call the bag's `styleTags` holds the style elements of the sheet as
that one render call left it, and every other field of the bag reads as before. -/
theorem renderToHtml_spec {Sheet Tags Comp Html V ε : Type} (api : ServerStyleSheet Sheet Tags)
    (render : Element Comp → Sheet → Except ε (Html × Sheet))
    (comp : Comp) (meta : JsObject (MetaValue Tags V)) (html : Html) (sheet : Sheet)
    (h : render (.collectStyles (.create comp)) api.fresh = .ok (html, sheet)) :
    ∃ metaAfter, renderToHtml api render comp meta = .ok (html, metaAfter) ∧
      JsObject.get metaAfter "styleTags" = some (.tags (api.getStyleElement sheet)) ∧
      ∀ k, k ≠ "styleTags" → JsObject.get metaAfter k = JsObject.get meta k := by
  refine ⟨JsObject.set meta "styleTags" (.tags (api.getStyleElement sheet)), ?_,
    JsObject.get_set_self _ _ _, fun k hk => JsObject.get_set_other _ _ _ _ hk⟩
  unfold renderToHtml
  simp only [h]

/-- Instance of C9 on a render function that registers one style rule. -/
theorem renderToHtml_spec_witness :
    sampleRender (.collectStyles (.create "Home")) sampleSheet.fresh
      = .ok ("<div>hello</div>", ["div:color=red"]) ∧
    ∃ metaAfter, renderToHtml sampleSheet sampleRender "Home" sampleMeta
        = .ok ("<div>hello</div>", metaAfter) ∧
      JsObject.get metaAfter "styleTags"
        = some (.tags (sampleSheet.getStyleElement ["div:color=red"])) ∧
      ∀ k, k ≠ "styleTags" → JsObject.get metaAfter k = JsObject.get sampleMeta k :=
  ⟨rfl, renderToHtml_spec sampleSheet sampleRender "Home" sampleMeta "<div>hello</div>"
    ["div:color=red"] rfl⟩

/-! ## Regular expressions: paths the literals match -/

theorem Regex.search_append (r : Regex) (pre s : List Char)
    (h : r.run s (fun _ => true) = true) : r.search (pre ++ s) = true := by
  induction pre with
  | nil =>
    cases s with
    | nil => simpa [Regex.search] using h
    | cons x xs => simp [Regex.search, h]
  | cons p ps ih => simp [Regex.search, ih]

theorem Regex.run_lit_cons (c x : Char) (xs : List Char) (k : List Char → Bool) :
    (Regex.lit c).run (x :: xs) k = (x == c && k xs) := rfl

theorem Regex.run_dot_cons (x : Char) (xs : List Char) (k : List Char → Bool) :
    Regex.dot.run (x :: xs) k = (!isLineTerminator x && k xs) := rfl

theorem Regex.run_seq (a b : Regex) (s : List Char) (k : List Char → Bool) :
    (Regex.seq a b).run s k = a.run s (fun t => b.run t k) := rfl

theorem Regex.run_alt (a b : Regex) (s : List Char) (k : List Char → Bool) :
    (Regex.alt a b).run s k = (a.run s k || b.run s k) := rfl

theorem Regex.run_opt (a : Regex) (s : List Char) (k : List Char → Bool) :
    (Regex.opt a).run s k = (a.run s k || k s) := rfl

theorem Regex.run_star (a : Regex) (s : List Char) (k : List Char → Bool) :
    (Regex.star a).run s k = starLoop a.run s.length s k := rfl

theorem starLoop_succ (step : List Char → (List Char → Bool) → Bool) (n : Nat)
    (s : List Char) (k : List Char → Bool) :
    starLoop step (n + 1) s k =
      (step s (fun t => decide (t.length < s.length) && starLoop step n t k) || k s) := rfl

theorem starLoop_dot (k : List Char → Bool) (hk : k [] = true) :
    ∀ (q : List Char) (n : Nat), q.length ≤ n → (∀ c ∈ q, isLineTerminator c = false) →
      starLoop (Regex.run .dot) n q k = true := by
  intro q
  induction q with
  | nil =>
    intro n _ _
    cases n with
    | zero => simpa [starLoop] using hk
    | succ n => simp [starLoop_succ, hk]
  | cons x xs ih =>
    intro n hn hq
    cases n with
    | zero => simp at hn
    | succ n =>
      have hx : isLineTerminator x = false := hq x (by simp)
      have hxs : starLoop (Regex.run .dot) n xs k = true :=
        ih n (by simpa using hn) (fun c hc => hq c (by simp [hc]))
      rw [starLoop_succ, Regex.run_dot_cons, hx, hxs]
      simp

theorem queryTail_nil : queryTail.run [] (fun _ => true) = true := by
  decide

theorem queryTail_query (q : List Char) (hq : ∀ c ∈ q, isLineTerminator c = false) :
    queryTail.run ('?' :: q) (fun _ => true) = true := by
  have := starLoop_dot (fun t => Regex.run .eos t (fun _ => true)) (by decide) q q.length
    (le_refl _) hq
  rw [queryTail, Regex.run_seq, Regex.run_opt, Regex.run_seq, Regex.run_lit_cons, Regex.run_star,
    this]
  simp

theorem urlLoaderExclude_run (ext : String) (t : List Char)
    (hext : ext ∈ ["js", "jsx", "ts", "tsx", "css", "less"])
    (ht : queryTail.run t (fun _ => true) = true) :
    urlLoaderExclude.run ('.' :: (ext.toList ++ t)) (fun _ => true) = true := by
  have hdef : urlLoaderExclude = .seq (.lit '.') (.seq
    (.oneOf [.word ['j', 's'], .word ['j', 's', 'x'], .word ['c', 's', 's'],
      .word ['l', 'e', 's', 's'], .word ['t', 's'], .word ['t', 's', 'x']]) queryTail) := rfl
  rw [hdef]
  simp only [List.mem_cons, List.mem_singleton, List.not_mem_nil, or_false] at hext
  rcases hext with rfl | rfl | rfl | rfl | rfl | rfl <;>
    simp [Regex.run_seq, Regex.run_alt, Regex.run_lit_cons, Regex.oneOf, Regex.word, ht]

theorem urlLoaderExclude_test (base ext suffix : String)
    (hext : ext ∈ ["js", "jsx", "ts", "tsx", "css", "less"])
    (hs : suffix = "" ∨ ∃ query : String,
      suffix = "?" ++ query ∧ ∀ c ∈ query.toList, isLineTerminator c = false) :
    urlLoaderExclude.test (base ++ "." ++ ext ++ suffix) = true := by
  have ht : queryTail.run suffix.toList (fun _ => true) = true := by
    rcases hs with rfl | ⟨query, rfl, hq⟩
    · exact queryTail_nil
    · exact queryTail_query query.toList hq
  have := Regex.search_append urlLoaderExclude base.toList _
    (urlLoaderExclude_run ext suffix.toList hext ht)
  simpa [Regex.test, String.toList, String.data_append] using this

/-! ## Arrays with holes -/

theorem JsArray.slot_set_same {α : Type} (a : JsArray α) (i : Nat) (v : α) :
    JsArray.get (JsArray.set a i v) i = some v := by
  unfold JsArray.get JsArray.set
  by_cases hi : i < a.length
  · simp [hi]
  · have hlen : (a ++ List.replicate (i - a.length) (none : Option α)).length = i := by
      simp; omega
    simp only [hi, if_false]
    rw [List.getElem?_append_right (by omega), hlen]
    simp

theorem JsArray.slot_set_other {α : Type} (a : JsArray α) (i j : Nat) (v : α) (h : j ≠ i) :
    JsArray.get (JsArray.set a i v) j = JsArray.get a j := by
  unfold JsArray.get JsArray.set
  by_cases hi : i < a.length
  · simp [hi, List.getElem?_set_ne (Ne.symm h)]
  · simp only [hi, if_false]
    by_cases hj : j < a.length
    · rw [List.append_assoc, List.getElem?_append_left hj]
    · have hnone : a[j]? = none := List.getElem?_eq_none (by omega)
      rw [hnone]
      by_cases hji : j < i
      · rw [List.getElem?_append_left (by simp; omega),
          List.getElem?_append_right (by omega)]
        rw [List.getElem?_replicate]
        simp
      · rw [List.getElem?_eq_none (by simp; omega)]

/-! ## Build customizer: the configuration after `webpack` -/

theorem webpack_inv (env : ModuleEnv) (config : Config) (rt : NodeRuntime) (args : Args)
    (config' : Config) (rt' : NodeRuntime)
    (h : webpack env config rt args = .ok (config', rt')) :
    ∃ (r0 r1 : Rule) (rest : List Rule) (r2 : Rule) (tail : List Rule),
      config.module_.rules = r0 :: r1 :: rest ∧
      rest ++ [lessConfig env args.stage] = r2 :: tail ∧
      config'.module_.rules = scriptRule r0.exclude :: r1 ::
        { r2 with exclude := some (.regex urlLoaderExclude) } :: tail ∧
      config'.plugins = JsArray.set config.plugins 2 extractTextPlugin ∧
      config'.resolve.extensions = config.resolve.extensions ++ [".ts", ".tsx", ".less", ".css"] ∧
      config'.resolve.alias_ = env.typescriptAlias := by
  obtain ⟨resolve, ⟨rules⟩, plugins⟩ := config
  match rules with
  | [] => simp [webpack] at h
  | [r0] => simp [webpack] at h
  | r0 :: r1 :: rest =>
    cases rest with
    | nil =>
      simp only [webpack, printWebpackConfigDuringBuild] at h
      simp at h
      obtain ⟨rfl, rfl⟩ := h
      exact ⟨r0, r1, [], _, [], rfl, rfl, rfl, rfl, by simp, rfl⟩
    | cons r2 rest =>
      simp only [webpack, printWebpackConfigDuringBuild] at h
      simp at h
      obtain ⟨rfl, rfl⟩ := h
      exact ⟨r0, r1, _, r2, _, rfl, rfl, rfl, rfl, by simp, rfl⟩

/-- The last rule after a successful call is `lessConfig`, up to its `exclude`. -/
theorem webpack_last_rule (env : ModuleEnv) (config : Config) (rt : NodeRuntime) (args : Args)
    (config' : Config) (rt' : NodeRuntime)
    (h : webpack env config rt args = .ok (config', rt')) :
    ∃ less : Rule, config'.module_.rules.getLast? = some less ∧
      less.test = (lessConfig env args.stage).test ∧
      less.use = (lessConfig env args.stage).use ∧
      less.loader = (lessConfig env args.stage).loader ∧
      less.extra = (lessConfig env args.stage).extra := by
  obtain ⟨r0, r1, rest, r2, tail, _, hrest, hrules, _⟩ := webpack_inv env config rt args config' rt' h
  rw [hrules]
  cases tail with
  | nil =>
    have hr2 : r2 = lessConfig env args.stage := by
      cases rest with
      | nil => simpa using hrest.symm
      | cons x xs => simp at hrest
    subst hr2
    exact ⟨{ lessConfig env args.stage with exclude := some (.regex urlLoaderExclude) },
      rfl, rfl, rfl, rfl, rfl⟩
  | cons t ts =>
    refine ⟨lessConfig env args.stage, ?_, rfl, rfl, rfl, rfl⟩
    have h1 : (rest ++ [lessConfig env args.stage]).getLast? = some (lessConfig env args.stage) := by
      simp
    rw [hrest] at h1
    simpa [List.getLast?_cons_cons] using h1

theorem lessTest_test (base : String) : lessTest.test (base ++ ".less") = true := by
  have hrun : lessTest.run ['.', 'l', 'e', 's', 's'] (fun _ => true) = true := by decide
  have := Regex.search_append lessTest base.toList _ hrun
  simpa [Regex.test, String.toList, String.data_append] using this

theorem webpack_ok_of_two_le (env : ModuleEnv) (config : Config) (rt : NodeRuntime) (args : Args)
    (h : 2 ≤ config.module_.rules.length) :
    ∃ config' rt', webpack env config rt args = .ok (config', rt') := by
  obtain ⟨resolve, ⟨rules⟩, plugins⟩ := config
  match rules with
  | [] => simp at h
  | [r0] => simp at h
  | r0 :: r1 :: rest =>
    cases rest with
    | nil => exact ⟨_, _, rfl⟩
    | cons r2 rest =>
      simp only [webpack, printWebpackConfigDuringBuild]
      simp

theorem webpack_error_of_lt_two (env : ModuleEnv) (config : Config) (rt : NodeRuntime) (args : Args)
    (h : config.module_.rules.length < 2) :
    ∃ e, webpack env config rt args = .error e := by
  obtain ⟨resolve, ⟨rules⟩, plugins⟩ := config
  match rules with
  | [] => exact ⟨_, rfl⟩
  | [r0] => exact ⟨_, rfl⟩
  | r0 :: r1 :: rest => simp at h; omega

/-! ## Build customizer: the claims -/

theorem JsArray.length_set {α : Type} (a : JsArray α) (i : Nat) (v : α) :
    (JsArray.set a i v).length = max a.length (i + 1) := by
  unfold JsArray.set
  by_cases hi : i < a.length
  · simp only [hi, if_true, List.length_set]
    omega
  · simp only [hi, if_false, List.length_append, List.length_replicate, List.length_singleton]
    omega

/-- C5: after a successful call the last rule of the list is the stylesheet rule (its
`test` matches every path ending in `.less`). In stage `dev` it has a `use` chain of
style-loader, css-loader, postcss-loader, less-loader with `minimize` false and
`sourceMap` true on every loader that takes the option. In any other stage (so in
production) its `loader` is `ExtractTextPlugin.extract` over css-loader,
postcss-loader, less-loader with fallback style-loader, `minimize` true and no loader
asking for source maps. In both the less-loader gets `modifyVars` = the theme
variables loaded with the module. -/
theorem webpack_less_rule (env : ModuleEnv) (config : Config) (rt : NodeRuntime) (args : Args)
    (config' : Config) (rt' : NodeRuntime)
    (h : webpack env config rt args = .ok (config', rt')) :
    ∃ (less : Rule) (test : Condition),
      config'.module_.rules.getLast? = some less ∧
      less.test = some test ∧ (∀ base : String, test.matches (base ++ ".less") = true) ∧
      (args.stage = "dev" →
        ∃ use : List UseEntry, less.use = some use ∧ less.loader = none ∧
          use.map UseEntry.loaderName
            = ["style-loader", "css-loader", "postcss-loader", "less-loader"] ∧
          use.map UseEntry.minimize = [none, some false, none, none] ∧
          use.map UseEntry.sourceMap = [none, some true, some true, some true] ∧
          use.map UseEntry.modifyVars = [none, none, none, some env.themeVariables]) ∧
      (args.stage ≠ "dev" →
        ∃ extract : ExtractOptions, less.loader = some (.extract extract) ∧ less.use = none ∧
          extract.fallback.loaderName = "style-loader" ∧
          extract.fallback.sourceMap = some false ∧
          extract.use.map UseEntry.loaderName
            = ["css-loader", "postcss-loader", "less-loader"] ∧
          extract.use.map UseEntry.minimize = [some true, none, none] ∧
          extract.use.map UseEntry.sourceMap = [some false, none, some false] ∧
          extract.use.map UseEntry.modifyVars = [none, none, some env.themeVariables]) := by
  obtain ⟨less, hlast, htest, huse, hloader, _⟩ :=
    webpack_last_rule env config rt args config' rt' h
  refine ⟨less, .regex lessTest, hlast, ?_, fun base => lessTest_test base, ?_, ?_⟩
  · rw [htest]
    unfold lessConfig
    split <;> rfl
  · intro hdev
    rw [huse, hloader]
    unfold lessConfig
    rw [if_pos hdev]
    exact ⟨_, rfl, rfl, rfl, rfl, rfl, rfl⟩
  · intro hprod
    rw [huse, hloader]
    unfold lessConfig
    rw [if_neg hprod]
    exact ⟨_, rfl, rfl, rfl, rfl, rfl, rfl, rfl, rfl⟩

/-- Instance of C5 on the sample configuration, in both stages. -/
theorem webpack_less_rule_witness :
    (webpack sampleEnv sampleConfig sampleRuntime ⟨"dev"⟩
        = .ok (sampleConfigAfter "dev", sampleRuntimeAfter "dev") ∧
      ∃ (less : Rule) (use : List UseEntry),
        (sampleConfigAfter "dev").module_.rules.getLast? = some less ∧
        less.use = some use ∧
        use.map UseEntry.loaderName
          = ["style-loader", "css-loader", "postcss-loader", "less-loader"] ∧
        use.map UseEntry.modifyVars = [none, none, none, some sampleEnv.themeVariables]) ∧
    (webpack sampleEnv sampleConfig sampleRuntime ⟨"prod"⟩
        = .ok (sampleConfigAfter "prod", sampleRuntimeAfter "prod") ∧
      ∃ (less : Rule) (extract : ExtractOptions),
        (sampleConfigAfter "prod").module_.rules.getLast? = some less ∧
        less.loader = some (.extract extract) ∧
        extract.use.map UseEntry.loaderName = ["css-loader", "postcss-loader", "less-loader"] ∧
        extract.use.map UseEntry.modifyVars = [none, none, some sampleEnv.themeVariables]) := by
  refine ⟨⟨rfl, ?_⟩, ⟨rfl, ?_⟩⟩
  · obtain ⟨less, _, hlast, _, _, hdev, _⟩ :=
      webpack_less_rule sampleEnv sampleConfig sampleRuntime ⟨"dev"⟩
        (sampleConfigAfter "dev") (sampleRuntimeAfter "dev") rfl
    obtain ⟨use, huse, _, hnames, _, _, hvars⟩ := hdev rfl
    exact ⟨less, use, hlast, huse, hnames, hvars⟩
  · obtain ⟨less, _, hlast, _, _, _, hprod⟩ :=
      webpack_less_rule sampleEnv sampleConfig sampleRuntime ⟨"prod"⟩
        (sampleConfigAfter "prod") (sampleRuntimeAfter "prod") rfl
    obtain ⟨extract, hloader, _, _, _, hnames, _, _, hvars⟩ := hprod (by decide)
    exact ⟨less, extract, hlast, hloader, hnames, hvars⟩

/-- C6: after a successful call the rule list has exactly one more entry than before;
the new last entry is the stylesheet rule. A second call on the resulting
configuration succeeds as well and leaves two more entries than at the start, a rule
list different from the one after the first call: the hook is not idempotent. -/
theorem webpack_rule_list_grows (env : ModuleEnv) (config : Config) (rt : NodeRuntime)
    (args : Args) (config' : Config) (rt' : NodeRuntime)
    (h : webpack env config rt args = .ok (config', rt')) :
    config'.module_.rules.length = config.module_.rules.length + 1 ∧
    (∃ (less : Rule) (test : Condition), config'.module_.rules.getLast? = some less ∧
      less.test = some test ∧ ∀ base : String, test.matches (base ++ ".less") = true) ∧
    (∀ (rt2 : NodeRuntime) (args2 : Args), ∃ (config'' : Config) (rt'' : NodeRuntime),
      webpack env config' rt2 args2 = .ok (config'', rt'') ∧
      config''.module_.rules.length = config.module_.rules.length + 2 ∧
      config''.module_.rules ≠ config'.module_.rules) := by
  obtain ⟨r0, r1, rest, r2, tail, hrules, hrest, hrules', _⟩ :=
    webpack_inv env config rt args config' rt' h
  have hlen : config'.module_.rules.length = config.module_.rules.length + 1 := by
    have := congrArg List.length hrest
    rw [hrules, hrules']
    simp only [List.length_cons, List.length_append, List.length_nil] at this ⊢
    omega
  refine ⟨hlen, ?_, ?_⟩
  · obtain ⟨less, hlast, htest, _⟩ := webpack_last_rule env config rt args config' rt' h
    refine ⟨less, .regex lessTest, hlast, ?_, fun base => lessTest_test base⟩
    rw [htest]
    unfold lessConfig
    split <;> rfl
  · intro rt2 args2
    have hc : 2 ≤ config.module_.rules.length := by
      rw [hrules]
      simp
    obtain ⟨config'', rt'', h2⟩ := webpack_ok_of_two_le env config' rt2 args2 (by omega)
    obtain ⟨_, _, _, _, _, hrules2, hrest2, hrules2', _⟩ :=
      webpack_inv env config' rt2 args2 config'' rt'' h2
    have hlen2 : config''.module_.rules.length = config'.module_.rules.length + 1 := by
      have := congrArg List.length hrest2
      rw [hrules2, hrules2']
      simp only [List.length_cons, List.length_append, List.length_nil] at this ⊢
      omega
    refine ⟨config'', rt'', h2, by omega, ?_⟩
    intro heq
    rw [heq] at hlen2
    omega

/-- Instance of C6 on the sample configuration. -/
theorem webpack_rule_list_grows_witness :
    webpack sampleEnv sampleConfig sampleRuntime ⟨"dev"⟩
      = .ok (sampleConfigAfter "dev", sampleRuntimeAfter "dev") ∧
    (sampleConfigAfter "dev").module_.rules.length = sampleConfig.module_.rules.length + 1 :=
  ⟨rfl, (webpack_rule_list_grows sampleEnv sampleConfig sampleRuntime ⟨"dev"⟩
    (sampleConfigAfter "dev") (sampleRuntimeAfter "dev") rfl).1⟩

/-- C7, as stated, fails: the new pattern does not match `src/main.js` followed by
the query suffix `?` and a line feed, as the `.` of `(\?.*)?$` stops at a line
terminator. -/
theorem webpack_exclude_pattern_counterexample :
    3 ≤ sampleConfig.module_.rules.length ∧
    webpack sampleEnv sampleConfig sampleRuntime ⟨"dev"⟩
      = .ok (sampleConfigAfter "dev", sampleRuntimeAfter "dev") ∧
    ((sampleConfigAfter "dev").module_.rules[2]?.bind Rule.exclude).map
      (fun exclude => exclude.matches ("src/main" ++ "." ++ "js" ++ "?\n")) = some false :=
  ⟨by decide, rfl, by decide⟩

/-- C7, amended: with at least three rules the call succeeds in every stage, and the
rule at index 2 is the incoming one with only its `exclude` replaced. The new pattern
matches every path that ends in `.js`, `.jsx`, `.ts`, `.tsx`, `.css` or `.less`,
optionally followed by `?` and a query that contains no line terminator; so every
such `.js` or `.jsx` path that the incoming pattern matched is still matched. -/
theorem webpack_exclude_pattern (env : ModuleEnv) (config : Config) (rt : NodeRuntime)
    (args : Args) (h3 : 3 ≤ config.module_.rules.length) :
    ∃ (config' : Config) (rt' : NodeRuntime) (rule2 : Rule) (exclude : Condition),
      webpack env config rt args = .ok (config', rt') ∧
      config.module_.rules[2]? = some rule2 ∧
      config'.module_.rules[2]? = some { rule2 with exclude := some exclude } ∧
      (∀ base ext suffix : String, ext ∈ ["js", "jsx", "ts", "tsx", "css", "less"] →
        (suffix = "" ∨ ∃ query : String,
          suffix = "?" ++ query ∧ ∀ c ∈ query.toList, isLineTerminator c = false) →
        exclude.matches (base ++ "." ++ ext ++ suffix) = true) ∧
      (∀ old : Condition, rule2.exclude = some old →
        ∀ base ext suffix : String, ext ∈ ["js", "jsx"] →
          (suffix = "" ∨ ∃ query : String,
            suffix = "?" ++ query ∧ ∀ c ∈ query.toList, isLineTerminator c = false) →
          old.matches (base ++ "." ++ ext ++ suffix) = true →
          exclude.matches (base ++ "." ++ ext ++ suffix) = true) := by
  obtain ⟨config', rt', h⟩ := webpack_ok_of_two_le env config rt args (by omega)
  obtain ⟨r0, r1, rest, r2, tail, hrules, hrest, hrules', _⟩ :=
    webpack_inv env config rt args config' rt' h
  have hall : ∀ base ext suffix : String, ext ∈ ["js", "jsx", "ts", "tsx", "css", "less"] →
      (suffix = "" ∨ ∃ query : String,
        suffix = "?" ++ query ∧ ∀ c ∈ query.toList, isLineTerminator c = false) →
      (Condition.regex urlLoaderExclude).matches (base ++ "." ++ ext ++ suffix) = true :=
    fun base ext suffix hext hs => urlLoaderExclude_test base ext suffix hext hs
  cases rest with
  | nil =>
    rw [hrules] at h3
    simp at h3
  | cons x xs =>
    have hx : x = r2 := by
      have := hrest
      simp only [List.cons_append, List.cons.injEq] at this
      exact this.1
    subst hx
    refine ⟨config', rt', x, .regex urlLoaderExclude, h, by rw [hrules]; simp,
      by rw [hrules']; simp, hall, ?_⟩
    intro old _ base ext suffix hext hs _
    refine hall base ext suffix ?_ hs
    simp only [List.mem_cons, List.mem_singleton, List.not_mem_nil, or_false] at hext ⊢
    rcases hext with rfl | rfl
    · exact Or.inl rfl
    · exact Or.inr (Or.inl rfl)

/-- Instance of the amended C7 on the sample configuration. -/
theorem webpack_exclude_pattern_witness :
    3 ≤ sampleConfig.module_.rules.length ∧
    ∃ (config' : Config) (rt' : NodeRuntime) (rule2 : Rule) (exclude : Condition),
      webpack sampleEnv sampleConfig sampleRuntime ⟨"dev"⟩ = .ok (config', rt') ∧
      sampleConfig.module_.rules[2]? = some rule2 ∧
      config'.module_.rules[2]? = some { rule2 with exclude := some exclude } ∧
      (∀ base ext suffix : String, ext ∈ ["js", "jsx", "ts", "tsx", "css", "less"] →
        (suffix = "" ∨ ∃ query : String,
          suffix = "?" ++ query ∧ ∀ c ∈ query.toList, isLineTerminator c = false) →
        exclude.matches (base ++ "." ++ ext ++ suffix) = true) ∧
      (∀ old : Condition, rule2.exclude = some old →
        ∀ base ext suffix : String, ext ∈ ["js", "jsx"] →
          (suffix = "" ∨ ∃ query : String,
            suffix = "?" ++ query ∧ ∀ c ∈ query.toList, isLineTerminator c = false) →
          old.matches (base ++ "." ++ ext ++ suffix) = true →
          exclude.matches (base ++ "." ++ ext ++ suffix) = true) :=
  ⟨by decide, webpack_exclude_pattern sampleEnv sampleConfig sampleRuntime ⟨"dev"⟩ (by decide)⟩

/-- C8, as stated, fails: on a rule list of two entries (fewer than three) the call
returns instead of raising an error. -/
theorem webpack_index_assumptions_counterexample :
    twoRuleConfig.module_.rules.length < 3 ∧
    ∃ (config' : Config) (rt' : NodeRuntime),
      webpack sampleEnv twoRuleConfig sampleRuntime ⟨"dev"⟩ = .ok (config', rt') :=
  ⟨by decide, _, _, rfl⟩

/-- C8, amended: the call raises an error for every configuration whose rule list has
fewer than two entries, in every stage. With exactly two entries it returns: index 2
then addresses the stylesheet rule the call has just appended, and the exclude
pattern is written onto that rule. -/
theorem webpack_index_assumptions (env : ModuleEnv) (config : Config) (rt : NodeRuntime)
    (args : Args) :
    (config.module_.rules.length < 2 → ∃ e, webpack env config rt args = .error e) ∧
    (config.module_.rules.length = 2 →
      ∃ (config' : Config) (rt' : NodeRuntime) (less : Rule),
        webpack env config rt args = .ok (config', rt') ∧
        config'.module_.rules[2]? = some less ∧
        config'.module_.rules.getLast? = some less ∧
        less.exclude = some (.regex urlLoaderExclude)) := by
  refine ⟨webpack_error_of_lt_two env config rt args, ?_⟩
  intro h2
  obtain ⟨config', rt', h⟩ := webpack_ok_of_two_le env config rt args (le_of_eq h2.symm)
  obtain ⟨r0, r1, rest, r2, tail, hrules, hrest, hrules', _⟩ :=
    webpack_inv env config rt args config' rt' h
  have hnil : rest = [] := by
    rw [hrules] at h2
    simpa using h2
  subst hnil
  have htail : tail = [] := by
    have := congrArg List.length hrest
    simpa using this.symm
  subst htail
  exact ⟨config', rt', _, h, by rw [hrules']; rfl, by rw [hrules']; rfl, rfl⟩

/-- Instance of the amended C8: one rule gives an error, two rules give a result. -/
theorem webpack_index_assumptions_witness :
    (oneRuleConfig.module_.rules.length < 2 ∧
      ∃ e, webpack sampleEnv oneRuleConfig sampleRuntime ⟨"prod"⟩ = .error e) ∧
    (twoRuleConfig.module_.rules.length = 2 ∧
      ∃ (config' : Config) (rt' : NodeRuntime) (less : Rule),
        webpack sampleEnv twoRuleConfig sampleRuntime ⟨"prod"⟩ = .ok (config', rt') ∧
        config'.module_.rules[2]? = some less ∧
        config'.module_.rules.getLast? = some less ∧
        less.exclude = some (.regex urlLoaderExclude)) :=
  ⟨⟨by decide,
      (webpack_index_assumptions sampleEnv oneRuleConfig sampleRuntime ⟨"prod"⟩).1 (by decide)⟩,
    ⟨by decide,
      (webpack_index_assumptions sampleEnv twoRuleConfig sampleRuntime ⟨"prod"⟩).2 (by decide)⟩⟩

/-- C10: after a successful call, in every stage, slot 2 of the plugin list holds an
`ExtractTextPlugin` built with `allChunks` true whose `filename` function, for every
`getPath`, returns `getPath('styles.css')` and sets the environment variable
`extractedCSSpath` to `styles.css` (no other variable changes); every other slot of
the plugin list reads as before the call, a list shorter than three growing to length
three with holes below slot 2. -/
theorem webpack_plugin_slot (env : ModuleEnv) (config : Config) (rt : NodeRuntime)
    (args : Args) (config' : Config) (rt' : NodeRuntime)
    (h : webpack env config rt args = .ok (config', rt')) :
    ∃ options : ExtractTextPluginOptions,
      JsArray.get config'.plugins 2 = some (.extractText options) ∧
      options.allChunks = true ∧
      (∀ (getPath : String → String) (processEnv : ProcessEnv),
        (options.filename getPath processEnv).1 = getPath "styles.css" ∧
        JsObject.get (options.filename getPath processEnv).2 "extractedCSSpath"
          = some "styles.css" ∧
        ∀ k, k ≠ "extractedCSSpath" →
          JsObject.get (options.filename getPath processEnv).2 k = JsObject.get processEnv k) ∧
      (∀ i, i ≠ 2 → JsArray.get config'.plugins i = JsArray.get config.plugins i) ∧
      config'.plugins.length = max config.plugins.length 3 := by
  obtain ⟨_, _, _, _, _, _, _, _, hplugins, _⟩ := webpack_inv env config rt args config' rt' h
  rw [hplugins]
  refine ⟨_, JsArray.slot_set_same _ _ _, rfl, ?_, fun i hi => JsArray.slot_set_other _ _ _ _ hi,
    JsArray.length_set _ _ _⟩
  intro getPath processEnv
  exact ⟨rfl, JsObject.get_set_self _ _ _, fun k hk => JsObject.get_set_other _ _ _ _ hk⟩

/-- Instance of C10 on the sample configuration. -/
theorem webpack_plugin_slot_witness :
    webpack sampleEnv sampleConfig sampleRuntime ⟨"prod"⟩
      = .ok (sampleConfigAfter "prod", sampleRuntimeAfter "prod") ∧
    ∃ options : ExtractTextPluginOptions,
      JsArray.get (sampleConfigAfter "prod").plugins 2 = some (.extractText options) ∧
      options.allChunks = true ∧
      (∀ i, i ≠ 2 →
        JsArray.get (sampleConfigAfter "prod").plugins i = JsArray.get sampleConfig.plugins i) := by
  refine ⟨rfl, ?_⟩
  obtain ⟨options, hslot, hall, _, hother, _⟩ :=
    webpack_plugin_slot sampleEnv sampleConfig sampleRuntime ⟨"prod"⟩
      (sampleConfigAfter "prod") (sampleRuntimeAfter "prod") rfl
  exact ⟨options, hslot, hall, hother⟩

end StaticConfig
